import Mathlib

/-!
Formal model of the nikalBudget budget engine.

Shallow embedding of the budget computation, credit-card-cycle and
cash-out logic of the repository.  Monetary amounts are modelled as
exact integers (fixed-point, two fractional digits folded into the
unit); all `parseFloat`/`toFixed(2)` round trips in the source are
exact on such values.  Dates are modelled as civil day indices
(`daysFromCivil`), matching the arithmetic of JS `Date` at midnight.
-/

namespace NikalBudget

/-- Payment status of an income, expense or statement
(`'pending' | 'done'` in the source). -/
inductive Status
  | pending
  | done
deriving DecidableEq

/-- Expense kind (`'REGULAR' | 'CARD_BILL' | 'LOAN'` in the source). -/
inductive Kind
  | REGULAR
  | CARD_BILL
  | LOAN
deriving DecidableEq

/-- Income line item as read by the totals endpoint
(`GET /api/budgets/:year/:month`): only amount and status matter there. -/
structure Inc where
  amount : Int
  status : Status
deriving DecidableEq

/-- Expense line item as read by the totals endpoint. -/
structure Exp where
  amount : Int
  kind : Kind
  status : Status
deriving DecidableEq

/-- `incomes.reduce((sum, inc) => sum + safeParseFloat(inc.amount), 0)`
(src/server/routes.ts, line 428). -/
def incomeTotal (incomes : List Inc) : Int :=
  incomes.foldl (fun s i => s + i.amount) 0

/-- Paid income: incomes with status `done` (src/server/routes.ts, lines 431-433). -/
def paidIncomeTotal (incomes : List Inc) : Int :=
  (incomes.filter (fun i => i.status == Status.done)).foldl (fun s i => s + i.amount) 0

/-- Sum of all `CARD_BILL` expenses regardless of status
(src/server/routes.ts, lines 436-437). -/
def cardsTotal (expenses : List Exp) : Int :=
  (expenses.filter (fun e => e.kind == Kind.CARD_BILL)).foldl (fun s e => s + e.amount) 0

/-- `CARD_BILL` expenses with status `done` (src/server/routes.ts, lines 453-455). -/
def paidCardExpenses (expenses : List Exp) : Int :=
  (expenses.filter (fun e => e.kind == Kind.CARD_BILL && e.status == Status.done)).foldl
    (fun s e => s + e.amount) 0

/-- Non-`CARD_BILL` expenses with status `done` (src/server/routes.ts, lines 458-460). -/
def paidNonCardExpenses (expenses : List Exp) : Int :=
  (expenses.filter (fun e => e.kind != Kind.CARD_BILL && e.status == Status.done)).foldl
    (fun s e => s + e.amount) 0

/-- All non-`CARD_BILL` expenses (src/server/routes.ts, lines 463-465). -/
def nonCardExpensesTotal (expenses : List Exp) : Int :=
  (expenses.filter (fun e => e.kind != Kind.CARD_BILL)).foldl (fun s e => s + e.amount) 0

/-- Pending non-card expenses (src/server/routes.ts, lines 468-470). -/
def pendingNonCardExpenses (expenses : List Exp) : Int :=
  (expenses.filter (fun e => e.kind != Kind.CARD_BILL && e.status == Status.pending)).foldl
    (fun s e => s + e.amount) 0

/-- Pending card bills (src/server/routes.ts, lines 473-475). -/
def pendingCardBills (expenses : List Exp) : Int :=
  (expenses.filter (fun e => e.kind == Kind.CARD_BILL && e.status == Status.pending)).foldl
    (fun s e => s + e.amount) 0

/-- All expenses, both statuses (src/server/routes.ts, line 478). -/
def totalExpenses (expenses : List Exp) : Int :=
  expenses.foldl (fun s e => s + e.amount) 0

/-- Derived totals returned by the budget endpoint. -/
structure Totals where
  incomeTotal : Int
  cardsTotal : Int
  nonCardExpensesTotal : Int
  totalExpenses : Int
  afterCardPayments : Int
  balance : Int
  need : Int
deriving DecidableEq

/-- Totals computation of the current revision of the totals endpoint
(`GET /api/budgets/:year/:month`, src/server/routes.ts lines 428-511):
`balance = paidIncomeTotal - paidCardExpenses - paidNonCardExpenses`,
`need = max(0, (pendingCardBills + pendingNonCardExpenses) - balance)`. -/
def computeTotals (incomes : List Inc) (expenses : List Exp) : Totals :=
  { incomeTotal := incomeTotal incomes
    cardsTotal := cardsTotal expenses
    nonCardExpensesTotal := nonCardExpensesTotal expenses
    totalExpenses := totalExpenses expenses
    afterCardPayments := incomeTotal incomes - cardsTotal expenses
    balance := paidIncomeTotal incomes - paidCardExpenses expenses - paidNonCardExpenses expenses
    need := max 0 ((pendingCardBills expenses + pendingNonCardExpenses expenses) -
      (paidIncomeTotal incomes - paidCardExpenses expenses - paidNonCardExpenses expenses)) }

/-- Totals computation of the other observed revision of the totals endpoint
(src/unnamed/part_014, lines 448-497):
`balance = incomeTotal - paidCardExpenses`,
`need = max(0, nonCardExpensesTotal - afterCardPayments)`. -/
def computeTotals014 (incomes : List Inc) (expenses : List Exp) : Totals :=
  { incomeTotal := incomeTotal incomes
    cardsTotal := cardsTotal expenses
    nonCardExpensesTotal := nonCardExpensesTotal expenses
    totalExpenses := totalExpenses expenses
    afterCardPayments := incomeTotal incomes - cardsTotal expenses
    balance := incomeTotal incomes - paidCardExpenses expenses
    need := max 0 (nonCardExpensesTotal expenses - (incomeTotal incomes - cardsTotal expenses)) }

/-- Modelled from the spec: `balance` = (sum of incomes with status DONE)
minus (sum of CARD_BILL expenses with status DONE) minus
(sum of non-CARD_BILL expenses with status DONE).  Stated independently
of the endpoint code via `map`/`sum` so the two revisions can be compared
against it. -/
def specBalance (incomes : List Inc) (expenses : List Exp) : Int :=
  ((incomes.filter (fun i => i.status == Status.done)).map (fun i => i.amount)).sum -
  ((expenses.filter (fun e => e.kind == Kind.CARD_BILL && e.status == Status.done)).map
    (fun e => e.amount)).sum -
  ((expenses.filter (fun e => e.kind != Kind.CARD_BILL && e.status == Status.done)).map
    (fun e => e.amount)).sum

/-- Folding additions of a projection equals summing the mapped list. -/
theorem foldl_add_eq_sum {α : Type} (f : α → Int) (l : List α) (a : Int) :
    l.foldl (fun s x => s + f x) a = a + (l.map f).sum := by
  induction l generalizing a with
  | nil => simp
  | cons x t ih =>
      simp only [List.foldl_cons, List.map_cons, List.sum_cons]
      rw [ih]
      ring

/-- C1: the claim asserts the same `balance` definition is used in every
revision of the totals endpoint, but the revision in src/unnamed/part_014
computes `balance = incomeTotal - paidCardExpenses`: on a snapshot with one
pending income of 100 it returns 100 while the claimed definition gives 0. -/
theorem C1_counterexample :
    (computeTotals014 [⟨100, Status.pending⟩] []).balance ≠
      specBalance [⟨100, Status.pending⟩] [] := by
  decide

/-- C1 (amended): the current revision (src/server/routes.ts) computes
`balance` as paid income minus paid card expenses minus paid non-card
expenses, exactly as the spec defines it; the other observed revision
(src/unnamed/part_014) instead computes `balance = incomeTotal -
paidCardExpenses`, so the two revisions do not share one definition. -/
theorem C1_amended (incomes : List Inc) (expenses : List Exp) :
    (computeTotals incomes expenses).balance = specBalance incomes expenses ∧
    (computeTotals014 incomes expenses).balance =
      incomeTotal incomes - paidCardExpenses expenses := by
  refine ⟨?_, rfl⟩
  simp only [computeTotals, specBalance, paidIncomeTotal, paidCardExpenses,
    paidNonCardExpenses]
  rw [foldl_add_eq_sum, foldl_add_eq_sum, foldl_add_eq_sum]
  ring

/-! ## Cash-out plan state (apply / reset), src/server/routes.ts lines 903-1010 -/

/-- Character-list view of a label string; string operations of the source
(`startsWith`, template literals, `===`) are modelled on character lists. -/
abbrev Chars := List Char

/-- Credit card as used by the cash-out routes: identity plus nickname. -/
structure CCard where
  id : Nat
  nickname : Chars
deriving DecidableEq

/-- `` `Cash-out – ${card.nickname}` `` (src/server/routes.ts line 974/989). -/
def cashOutLabel (c : CCard) : Chars :=
  "Cash-out – ".toList ++ c.nickname

/-- Income row of a budget (id, source label, amount, recurring, status,
paid date as an abstract day number). -/
structure IncomeRow where
  id : Nat
  source : Chars
  amount : Int
  recurring : Bool
  status : Status
  paidDate : Option Int
deriving DecidableEq

/-- Mutable per-budget state touched by the cash-out routes: the budget's
income rows, its `balanceUsed` counter, and a fresh-id supply for created
rows. -/
structure CashState where
  incomes : List IncomeRow
  balanceUsed : Int
  nextId : Nat
deriving DecidableEq

/-- `p.startsWith(q)` on character lists: does the second argument begin
with the first? -/
def strStarts : Chars → Chars → Bool
  | [], _ => true
  | _ :: _, [] => false
  | p :: ps, c :: cs => p == c && strStarts ps cs

/-- `DELETE /api/budgets/:year/:month/cash-out` (src/server/routes.ts lines
903-931): delete every income whose source starts with `"Cash-out –"` and
set `balanceUsed` to `'0'`. -/
def resetPlan (s : CashState) : CashState :=
  { s with
    incomes := s.incomes.filter (fun i => ! strStarts "Cash-out –".toList i.source)
    balanceUsed := 0 }

/-- `storage.getCardById(withdrawal.cardId)` modelled as a lookup in the
card table. -/
def findCard (cards : List CCard) (cid : Nat) : Option CCard :=
  cards.find? (fun c => c.id == cid)

/-- One withdrawal of a cash-out plan (`{ cardId, amount }`). -/
structure Withdrawal where
  cardId : Nat
  amount : Int
deriving DecidableEq

/-- Loop body of `POST /api/budgets/:year/:month/cash-out`
(src/server/routes.ts lines 964-998).  `existing` is the income list
fetched once before the loop; the accumulator carries the live income
list, the `newCashOut` running total and the fresh-id supply.  A
withdrawal whose card does not resolve is skipped (`continue`). -/
def cashOutStep (cards : List CCard) (today : Int) (existing : List IncomeRow)
    (acc : List IncomeRow × Int × Nat) (w : Withdrawal) :
    List IncomeRow × Int × Nat :=
  match findCard cards w.cardId with
  | none => acc
  | some card =>
    match existing.find? (fun i => i.source == cashOutLabel card) with
    | some ex =>
        (acc.1.map (fun i =>
          if i.id == ex.id then
            { i with amount := ex.amount + w.amount, recurring := false }
          else i),
         acc.2.1 + w.amount, acc.2.2)
    | none =>
        (acc.1 ++ [⟨acc.2.2, cashOutLabel card, w.amount, false, Status.done, some today⟩],
         acc.2.1 + w.amount, acc.2.2 + 1)

/-- `POST /api/budgets/:year/:month/cash-out` (src/server/routes.ts lines
934-1010): process each withdrawal against the income snapshot, then add
the accumulated `newCashOut` to the budget's `balanceUsed`. -/
def applyCashOut (cards : List CCard) (today : Int) (ws : List Withdrawal)
    (s : CashState) : CashState :=
  let r := ws.foldl (cashOutStep cards today s.incomes) (s.incomes, 0, s.nextId)
  { incomes := r.1, balanceUsed := s.balanceUsed + r.2.1, nextId := r.2.2 }

/-- If a list starts with `p ++ q` then it starts with `p`. -/
theorem strStarts_of_append {p q s : Chars} (h : strStarts (p ++ q) s = true) :
    strStarts p s = true := by
  induction p generalizing s with
  | nil => rfl
  | cons a t ih =>
      cases s with
      | nil => simp [strStarts] at h
      | cons b u =>
          simp only [List.cons_append, strStarts, Bool.and_eq_true] at h ⊢
          exact ⟨h.1, ih h.2⟩

/-- C7: after `resetPlan` no income row of the budget has a source starting
with the `"Cash-out – "` label, and `balanceUsed` is exactly 0, for every
prior state.  The route filters on the shorter `"Cash-out –"` test (no
trailing space), which removes every row matching the labelled form. -/
theorem C7_reset_total (s : CashState) :
    ((resetPlan s).incomes.all
      (fun i => ! strStarts "Cash-out – ".toList i.source)) = true ∧
    (resetPlan s).balanceUsed = 0 := by
  refine ⟨?_, rfl⟩
  rw [List.all_eq_true]
  intro i hi
  rw [resetPlan] at hi
  simp only [List.mem_filter, Bool.not_eq_true'] at hi
  simp only [Bool.not_eq_true']
  cases hst : strStarts "Cash-out – ".toList i.source with
  | false => rfl
  | true =>
      have hpre : ("Cash-out – ".toList : Chars) = "Cash-out –".toList ++ [' '] := by decide
      rw [hpre] at hst
      have := strStarts_of_append hst
      rw [this] at hi
      exact absurd hi.2 (by simp)

/-- Withdrawals whose card id does not resolve are no-ops of the cash-out
fold: folding over a plan equals folding over the plan restricted to
resolvable cards. -/
theorem cashOutFold_filter (cards : List CCard) (today : Int)
    (existing : List IncomeRow) (ws : List Withdrawal)
    (acc : List IncomeRow × Int × Nat) :
    ws.foldl (cashOutStep cards today existing) acc =
    (ws.filter (fun w => (findCard cards w.cardId).isSome)).foldl
      (cashOutStep cards today existing) acc := by
  induction ws generalizing acc with
  | nil => rfl
  | cons w t ih =>
      cases hc : findCard cards w.cardId with
      | none =>
          simp only [List.foldl_cons, List.filter_cons, hc, Option.isSome_none,
            Bool.false_eq_true, if_false, cashOutStep]
          exact ih acc
      | some card =>
          simp only [List.foldl_cons, List.filter_cons, hc, Option.isSome_some, if_true]
          exact ih _

/-- The `newCashOut` accumulator of the cash-out fold collects exactly the
amounts of the withdrawals whose card id resolves. -/
theorem cashOutFold_newCashOut (cards : List CCard) (today : Int)
    (existing : List IncomeRow) (ws : List Withdrawal)
    (acc : List IncomeRow × Int × Nat) :
    (ws.foldl (cashOutStep cards today existing) acc).2.1 =
    acc.2.1 + ((ws.filter (fun w => (findCard cards w.cardId).isSome)).map
      (fun w => w.amount)).sum := by
  induction ws generalizing acc with
  | nil => simp
  | cons w t ih =>
      cases hc : findCard cards w.cardId with
      | none =>
          simp only [List.foldl_cons, List.filter_cons, hc, Option.isSome_none,
            Bool.false_eq_true, if_false, cashOutStep]
          exact ih acc
      | some card =>
          simp only [List.foldl_cons, List.filter_cons, hc, Option.isSome_some, if_true,
            List.map_cons, List.sum_cons]
          cases hf : existing.find? (fun i => i.source == cashOutLabel card) with
          | some ex =>
              rw [cashOutStep, hc]
              simp only [hf]
              rw [ih]
              ring
          | none =>
              rw [cashOutStep, hc]
              simp only [hf]
              rw [ih]
              ring

/-- C10: a withdrawal whose `cardId` matches no card is silently skipped:
applying a plan equals applying the plan with unresolvable withdrawals
removed (so no income row is created for them and the rest still apply),
and `balanceUsed` grows by exactly the sum of the applied withdrawals.
The route never returns an error for a missing card (`continue`). -/
theorem C10_unknown_card_skipped (cards : List CCard) (today : Int)
    (ws : List Withdrawal) (s : CashState) :
    applyCashOut cards today ws s =
      applyCashOut cards today
        (ws.filter (fun w => (findCard cards w.cardId).isSome)) s ∧
    (applyCashOut cards today ws s).balanceUsed =
      s.balanceUsed + ((ws.filter (fun w => (findCard cards w.cardId).isSome)).map
        (fun w => w.amount)).sum := by
  constructor
  · rw [applyCashOut, applyCashOut, cashOutFold_filter]
  · rw [applyCashOut]
    simp only []
    rw [cashOutFold_newCashOut]
    simp

/-- `find?` skips a block with no match. -/
theorem find?_append_of_none {α : Type} (p : α → Bool) (l1 l2 : List α)
    (h : l1.find? p = none) : (l1 ++ l2).find? p = l2.find? p := by
  induction l1 with
  | nil => rfl
  | cons a t ih =>
      rw [List.find?_eq_none] at h
      have ha : p a = false := by
        have := h a (List.mem_cons_self a t)
        simpa using this
      have ht : t.find? p = none := by
        rw [List.find?_eq_none]
        intro x hx
        exact h x (List.mem_cons_of_mem a hx)
      simp [List.find?_cons, ha, ih ht]

/-- C6: applying a plan with a positive withdrawal on the same card twice
(two requests in the same month) yields one income row labeled with that
card's cash-out label, carrying the sum of the two amounts, and
`balanceUsed` equal to that sum — provided the card resolves, no row with
that label existed before, the id supply is fresh, and `balanceUsed`
started at 0. -/
theorem C6_idempotent_accumulation (cards : List CCard) (card : CCard)
    (cid : Nat) (today1 today2 X Y : Int) (s : CashState)
    (hcard : findCard cards cid = some card)
    (hnolabel : s.incomes.all (fun i => ! (i.source == cashOutLabel card)) = true)
    (hids : s.incomes.all (fun i => i.id != s.nextId) = true)
    (hbu : s.balanceUsed = 0) :
    (applyCashOut cards today2 [⟨cid, Y⟩]
        (applyCashOut cards today1 [⟨cid, X⟩] s)).incomes =
      s.incomes ++
        [⟨s.nextId, cashOutLabel card, X + Y, false, Status.done, some today1⟩] ∧
    ((applyCashOut cards today2 [⟨cid, Y⟩]
        (applyCashOut cards today1 [⟨cid, X⟩] s)).incomes.countP
      (fun i => i.source == cashOutLabel card)) = 1 ∧
    (applyCashOut cards today2 [⟨cid, Y⟩]
        (applyCashOut cards today1 [⟨cid, X⟩] s)).balanceUsed = X + Y := by
  have hfind0 : s.incomes.find? (fun i => i.source == cashOutLabel card) = none := by
    rw [List.find?_eq_none]
    intro x hx
    have := List.all_eq_true.mp hnolabel x hx
    simpa using this
  have h1 : applyCashOut cards today1 [⟨cid, X⟩] s =
      ⟨s.incomes ++ [⟨s.nextId, cashOutLabel card, X, false, Status.done, some today1⟩],
       X, s.nextId + 1⟩ := by
    simp only [applyCashOut, List.foldl_cons, List.foldl_nil, cashOutStep, hcard, hfind0, hbu]
    simp
  have h2 : applyCashOut cards today2 [⟨cid, Y⟩]
      (⟨s.incomes ++ [⟨s.nextId, cashOutLabel card, X, false, Status.done, some today1⟩],
        X, s.nextId + 1⟩ : CashState) =
      ⟨s.incomes ++ [⟨s.nextId, cashOutLabel card, X + Y, false, Status.done, some today1⟩],
       X + Y, s.nextId + 1⟩ := by
    simp only [applyCashOut, List.foldl_cons, List.foldl_nil, cashOutStep, hcard]
    rw [find?_append_of_none _ _ _ hfind0]
    simp only [List.find?_cons, beq_self_eq_true, if_true]
    rw [CashState.mk.injEq]
    refine ⟨?_, by ring, rfl⟩
    rw [List.map_append]
    have hml : (s.incomes.map (fun i =>
        if i.id == s.nextId then
          ({ i with amount := X + Y, recurring := false } : IncomeRow)
        else i)) = s.incomes := by
      have hcg := List.map_congr_left (l := s.incomes)
        (f := fun i => if i.id == s.nextId then
          ({ i with amount := X + Y, recurring := false } : IncomeRow) else i)
        (g := id)
        (by
          intro a ha
          have hne := List.all_eq_true.mp hids a ha
          simp only [bne_iff_ne, ne_eq] at hne
          simp [hne])
      rw [hcg, List.map_id]
    rw [hml]
    simp
  rw [h1, h2]
  have hc0 : s.incomes.countP (fun i => i.source == cashOutLabel card) = 0 := by
    rw [List.countP_eq_zero]
    intro a ha
    have := List.all_eq_true.mp hnolabel a ha
    simpa using this
  refine ⟨rfl, ?_, rfl⟩
  rw [List.countP_append, hc0]
  simp [List.countP_cons]

/-- C6 witness: withdrawing 5000 twice on one card from a clean month
yields a single accumulated row of 10000 and `balanceUsed = 10000`. -/
theorem C6_witness :
    (applyCashOut [⟨1, "JS Bank".toList⟩] 1 [⟨1, 5000⟩]
        (applyCashOut [⟨1, "JS Bank".toList⟩] 0 [⟨1, 5000⟩] ⟨[], 0, 0⟩)).incomes =
      [⟨0, cashOutLabel ⟨1, "JS Bank".toList⟩, 10000, false, Status.done, some 0⟩] ∧
    (applyCashOut [⟨1, "JS Bank".toList⟩] 1 [⟨1, 5000⟩]
        (applyCashOut [⟨1, "JS Bank".toList⟩] 0 [⟨1, 5000⟩] ⟨[], 0, 0⟩)).balanceUsed =
      10000 := by
  have h := C6_idempotent_accumulation [⟨1, "JS Bank".toList⟩] ⟨1, "JS Bank".toList⟩
    1 0 1 5000 5000 ⟨[], 0, 0⟩ (by decide) (by decide) (by decide) rfl
  refine ⟨by rw [h.1]; decide, by rw [h.2.2]; norm_num⟩

/-! ## Cash-out suggestion (client), src/client/src/components/CashOutPlanner.tsx -/

/-- Candidate card option given to the planner: id, available limit and a
due date (ISO date strings compare like their day numbers). -/
structure CardOption where
  id : Nat
  availableLimit : Int
  dueDate : Int
deriving DecidableEq

/-- Comparator of the planner sort (CashOutPlanner.tsx lines 67-71 and
338-342): `a` may precede `b` when `a`'s due date is later, or the due
dates are equal and `a`'s available limit is at least `b`'s. -/
def cardRel (a b : CardOption) : Prop :=
  b.dueDate < a.dueDate ∨ (a.dueDate = b.dueDate ∧ b.availableLimit ≤ a.availableLimit)

instance : DecidableRel cardRel := fun a b => by
  unfold cardRel
  infer_instance

instance : IsTotal CardOption cardRel := ⟨by
  intro a b
  rcases lt_trichotomy a.dueDate b.dueDate with h | h | h
  · exact Or.inr (Or.inl h)
  · rcases le_total b.availableLimit a.availableLimit with hl | hl
    · exact Or.inl (Or.inr ⟨h, hl⟩)
    · exact Or.inr (Or.inr ⟨h.symm, hl⟩)
  · exact Or.inl (Or.inl h)⟩

instance : IsTrans CardOption cardRel := ⟨by
  intro a b c hab hbc
  rcases hab with h1 | h1 <;> rcases hbc with h2 | h2
  · exact Or.inl (h2.trans h1)
  · exact Or.inl (h2.1 ▸ h1)
  · exact Or.inl (lt_of_lt_of_eq h2 h1.1.symm)
  · exact Or.inr ⟨h1.1.trans h2.1, h2.2.trans h1.2⟩⟩

/-- The planner's stable sort of the candidate cards. -/
def sortCards (cards : List CardOption) : List CardOption :=
  List.insertionSort cardRel cards

/-- Greedy consumption loop (CashOutPlanner.tsx lines 73-81 and 347-355):
walk the sorted cards, withdraw `min(remaining, availableLimit)` from each
positive step, stop when the need is covered. -/
def greedyTake : Int → List CardOption → List (Nat × Int)
  | _, [] => []
  | remaining, c :: rest =>
    if remaining ≤ 0 then []
    else
      if 0 < min remaining c.availableLimit then
        (c.id, min remaining c.availableLimit) ::
          greedyTake (remaining - min remaining c.availableLimit) rest
      else greedyTake remaining rest

/-- `suggestPlan` (CashOutPlanner.tsx lines 55-88): use the account
balance first (up to `maxBalance`), then greedily draw the remaining need
from the sorted cards. -/
def suggestPlan (need maxBalance : Int) (cards : List CardOption) :
    Int × List (Nat × Int) :=
  if need ≤ 0 then (0, [])
  else
    if 0 < need - min need maxBalance ∧ cards ≠ [] then
      (min need maxBalance, greedyTake (need - min need maxBalance) (sortCards cards))
    else (min need maxBalance, [])

/-- `suggestWithdrawals` (CashOutPlanner.tsx lines 334-358, the other
observed revision): no balance step, greedy directly over the sorted
cards. -/
def suggestWithdrawals (need : Int) (cards : List CardOption) :
    List (Nat × Int) :=
  if cards = [] ∨ need ≤ 0 then []
  else greedyTake need (sortCards cards)

/-- Modelled from the spec: two limits are "within 10% of the larger one". -/
def specWithin10 (a b : Int) : Prop :=
  10 * (max a b - min a b) ≤ max a b

instance : ∀ a b, Decidable (specWithin10 a b) := fun a b => by
  unfold specWithin10
  infer_instance

/-- Modelled from the spec: the claimed ordering rule — primarily by
available limit descending; only when the two limits are within 10% of
the larger one, prefer the card with the later due date. -/
def specCardRel (a b : CardOption) : Prop :=
  if specWithin10 a.availableLimit b.availableLimit then
    b.dueDate < a.dueDate ∨
      (a.dueDate = b.dueDate ∧ b.availableLimit ≤ a.availableLimit)
  else b.availableLimit ≤ a.availableLimit

instance : DecidableRel specCardRel := fun a b => by
  unfold specCardRel
  infer_instance

/-- Modelled from the spec: greedy consumption of the need following the
claimed (limit-first, 10%-tie-break) order. -/
def specSuggest (need : Int) (cards : List CardOption) : List (Nat × Int) :=
  if cards = [] ∨ need ≤ 0 then []
  else greedyTake need (List.insertionSort specCardRel cards)

/-- C2: on two cards whose limits are not within 10% of each other
(100 vs 50) but whose due dates differ, the code draws from the card with
the later due date (id 2) while the claimed limit-first rule would draw
from the larger-limit card (id 1): the claimed ordering is not the one
implemented. -/
theorem C2_counterexample :
    suggestWithdrawals 30 [⟨1, 100, 10⟩, ⟨2, 50, 20⟩] = [(2, 30)] ∧
    suggestPlan 30 0 [⟨1, 100, 10⟩, ⟨2, 50, 20⟩] = (0, [(2, 30)]) ∧
    specSuggest 30 [⟨1, 100, 10⟩, ⟨2, 50, 20⟩] = [(1, 30)] ∧
    suggestWithdrawals 30 [⟨1, 100, 10⟩, ⟨2, 50, 20⟩] ≠
      specSuggest 30 [⟨1, 100, 10⟩, ⟨2, 50, 20⟩] := by
  refine ⟨by decide, by decide, by decide, by decide⟩

/-- C2 (amended): the suggestion algorithm sorts the candidate cards
primarily by due date descending (later due date first) and breaks equal
due dates by larger available limit; greedy consumption of the
(remaining) need then follows that order, in both observed revisions. -/
theorem C2_amended (need maxBalance : Int) (cards : List CardOption) :
    List.Sorted cardRel (sortCards cards) ∧
    (sortCards cards).Perm cards ∧
    suggestPlan need maxBalance cards =
      (if need ≤ 0 then (0, [])
       else if 0 < need - min need maxBalance ∧ cards ≠ [] then
         (min need maxBalance, greedyTake (need - min need maxBalance) (sortCards cards))
       else (min need maxBalance, [])) ∧
    suggestWithdrawals need cards =
      (if cards = [] ∨ need ≤ 0 then [] else greedyTake need (sortCards cards)) := by
  exact ⟨List.sorted_insertionSort cardRel cards,
    List.perm_insertionSort cardRel cards, rfl, rfl⟩

/-! ## Billing cycle prediction (client), src/client/src/components/CardsList.tsx -/

/-- Day index of a civil (Gregorian) date: days since 1970-01-01, the day
count underlying JS `Date` comparisons and `setDate` arithmetic at
midnight. -/
def daysFromCivil (y m d : Int) : Int :=
  let yy := if m ≤ 2 then y - 1 else y
  let era := (if 0 ≤ yy then yy else yy - 399) / 400
  let yoe := yy - era * 400
  let mp := (m + 9) % 12
  let doy := (153 * mp + 2) / 5 + d - 1
  let doe := yoe * 365 + yoe / 4 - yoe / 100 + doy
  era * 146097 + doe - 719468

/-- `new Date(currentYear, currentMonth - 1, 1)`: first day of the target
month. -/
def monthStartIdx (y m : Int) : Int :=
  daysFromCivil y m 1

/-- `new Date(currentYear, currentMonth, 0)`: last day of the target
month (JS normalizes month overflow into January of the next year). -/
def monthEndIdx (y m : Int) : Int :=
  (if m = 12 then daysFromCivil (y + 1) 1 1 else daysFromCivil y (m + 1) 1) - 1

/-- The `while (iteration < maxIterations)` loop of `calculateDates`
(CardsList.tsx lines 232-254): break when the due date falls inside the
target month; if it overshot the month end, step back one cycle and
break; otherwise advance by one cycle and consume one iteration.  When
the fuel (iteration budget) is exhausted the current pair is returned
unchanged — the source has no error path after the loop. -/
def calcLoop (cycle mStart mEnd : Int) : Nat → Int → Int → Int × Int
  | 0, st, du => (st, du)
  | fuel + 1, st, du =>
    if mStart ≤ du ∧ du ≤ mEnd then (st, du)
    else if mEnd < du then (st - cycle, du - cycle)
    else calcLoop cycle mStart mEnd fuel (st + cycle) (du + cycle)

/-- Card configuration consumed by the anchor-based predictor:
`firstStatementDate` as a civil (year, month, day) when present,
`billingCycleDays` and `dayDifference`. -/
structure CycleCard where
  firstStatementDate : Option (Int × Int × Int)
  billingCycleDays : Int
  dayDifference : Int

/-- `calculateDates` (CardsList.tsx lines 213-262): `none` when the
year/month are falsy or the anchor fields are absent (`billingCycleDays`
equal to 0 is falsy), otherwise run the bounded search from the anchor
statement date and its `dayDifference`-shifted due date. -/
def calculateDates (card : CycleCard) (year month : Int) : Option (Int × Int) :=
  if year = 0 ∨ month = 0 then none
  else
    match card.firstStatementDate with
    | none => none
    | some (fy, fm, fd) =>
      if card.billingCycleDays = 0 then none
      else
        let firstIdx := daysFromCivil fy fm fd
        some (calcLoop card.billingCycleDays (monthStartIdx year month)
          (monthEndIdx year month) 1000 firstIdx (firstIdx + card.dayDifference))

/-- If some due date of the forward progression lands inside the target
month within the fuel budget, the loop returns a due date inside the
month. -/
theorem calcLoop_hits (cyc mS mE : Int) (hcyc : 0 < cyc) :
    ∀ (fuel : Nat) (st du : Int) (k : Nat), k < fuel →
      mS ≤ du + (k : Int) * cyc → du + (k : Int) * cyc ≤ mE →
      mS ≤ (calcLoop cyc mS mE fuel st du).2 ∧
        (calcLoop cyc mS mE fuel st du).2 ≤ mE := by
  intro fuel
  induction fuel with
  | zero =>
      intro st du k hk
      omega
  | succ n ih =>
      intro st du k hk h1 h2
      by_cases hin : mS ≤ du ∧ du ≤ mE
      · simp only [calcLoop, if_pos hin]
        exact hin
      · have hknn : (0 : Int) ≤ (k : Int) * cyc :=
          mul_nonneg (Int.natCast_nonneg k) hcyc.le
        have hnotover : ¬ mE < du := by
          intro hover
          omega
        have hstep : calcLoop cyc mS mE (n + 1) st du =
            calcLoop cyc mS mE n (st + cyc) (du + cyc) := by
          simp only [calcLoop, if_neg hin, if_neg hnotover]
        have hdu : du < mS := by
          rcases not_and_or.mp hin with h | h <;> omega
        have hk0 : k ≠ 0 := by
          rintro rfl
          simp only [Nat.cast_zero, zero_mul, add_zero] at h1
          omega
        obtain ⟨j, rfl⟩ : ∃ j, k = j + 1 := ⟨k - 1, by omega⟩
        rw [hstep]
        refine ih (st + cyc) (du + cyc) j (by omega) ?_ ?_
        · have : du + cyc + (j : Int) * cyc = du + ((j : Nat) + 1 : Int) * cyc := by ring
          rw [this]
          push_cast at h1 ⊢
          omega
        · have : du + cyc + (j : Int) * cyc = du + ((j : Nat) + 1 : Int) * cyc := by ring
          rw [this]
          push_cast at h2 ⊢
          omega

/-- With a negative cycle length and a due date starting before the month,
the loop consumes all its fuel and returns the pair advanced by
`fuel * cycle`. -/
theorem calcLoop_exhausts (cyc mS mE : Int) (hcyc : cyc < 0) (hme : mS ≤ mE) :
    ∀ (fuel : Nat) (st du : Int), du < mS →
      calcLoop cyc mS mE fuel st du =
        (st + (fuel : Int) * cyc, du + (fuel : Int) * cyc) := by
  intro fuel
  induction fuel with
  | zero =>
      intro st du h
      simp [calcLoop]
  | succ n ih =>
      intro st du h
      have hin : ¬ (mS ≤ du ∧ du ≤ mE) := by omega
      have hover : ¬ mE < du := by omega
      have hstep : calcLoop cyc mS mE (n + 1) st du =
          calcLoop cyc mS mE n (st + cyc) (du + cyc) := by
        simp only [calcLoop, if_neg hin, if_neg hover]
      rw [hstep, ih (st + cyc) (du + cyc) (by omega)]
      rw [Prod.mk.injEq]
      constructor <;> (push_cast; ring)

/-- C3: the anchor-based prediction can return a due date outside the
target month.  With anchor 2025-06-01, cycle 30, day difference 10 and
target January 2025 the very first due date already overshoots, the loop
steps back one cycle and returns a due date in May 2025. -/
theorem C3_counterexample :
    (calculateDates ⟨some (2025, 6, 1), 30, 10⟩ 2025 1).map
      (fun p => decide (monthStartIdx 2025 1 ≤ p.2 ∧ p.2 ≤ monthEndIdx 2025 1)) =
    some false := by
  decide

/-- C3 (amended): the predicted due date lies within the target month's
first and last day whenever some forward step of the anchor progression
(due₀ + k·cycle for some k below the 1000-iteration cap) lands inside the
target month; when no such step exists the returned due date may fall
outside the month. -/
theorem C3_amended (fy fm fd cyc dd y m : Int) (k : Nat)
    (hy : ¬ y = 0) (hm : ¬ m = 0) (hcyc : 0 < cyc) (hk : k < 1000)
    (h1 : monthStartIdx y m ≤ daysFromCivil fy fm fd + dd + (k : Int) * cyc)
    (h2 : daysFromCivil fy fm fd + dd + (k : Int) * cyc ≤ monthEndIdx y m) :
    ∃ st du, calculateDates ⟨some (fy, fm, fd), cyc, dd⟩ y m = some (st, du) ∧
      monthStartIdx y m ≤ du ∧ du ≤ monthEndIdx y m := by
  have hres := calcLoop_hits cyc (monthStartIdx y m) (monthEndIdx y m) hcyc
    1000 (daysFromCivil fy fm fd) (daysFromCivil fy fm fd + dd) k hk
    (by omega) (by omega)
  refine ⟨(calcLoop cyc (monthStartIdx y m) (monthEndIdx y m) 1000
      (daysFromCivil fy fm fd) (daysFromCivil fy fm fd + dd)).1,
    (calcLoop cyc (monthStartIdx y m) (monthEndIdx y m) 1000
      (daysFromCivil fy fm fd) (daysFromCivil fy fm fd + dd)).2, ?_, hres.1, hres.2⟩
  rw [calculateDates]
  rw [if_neg (by push_neg; exact ⟨hy, hm⟩)]
  simp only []
  rw [if_neg (by omega)]

/-- C3 amended witness: anchor 2025-01-01, cycle 30, day difference 10,
target February 2025 — the k = 1 step lands on 2025-02-10, inside the
month. -/
theorem C3_amended_witness :
    ∃ st du, calculateDates ⟨some (2025, 1, 1), 30, 10⟩ 2025 2 = some (st, du) ∧
      monthStartIdx 2025 2 ≤ du ∧ du ≤ monthEndIdx 2025 2 :=
  C3_amended 2025 1 1 30 10 2025 2 1 (by decide) (by decide) (by decide)
    (by decide) (by decide) (by decide)

/-- C4: a degenerate configuration (negative `billingCycleDays`) exhausts
the iteration cap, yet `calculateDates` still returns a date pair — no
`CycleComputationError` is raised anywhere in the source. -/
theorem C4_counterexample :
    (calculateDates ⟨some (2020, 1, 1), -30, 0⟩ 2025 3).isSome = true := by
  decide

/-- C4 (amended): the predictor always terminates within the
1000-iteration cap, and when the cap is exhausted (negative cycle length
with a due date starting before the target month) it returns the date
pair advanced by 1000 cycles instead of failing with an error. -/
theorem C4_amended (fy fm fd cyc dd y m : Int)
    (hy : ¬ y = 0) (hm : ¬ m = 0) (hcyc : cyc < 0)
    (hstart : daysFromCivil fy fm fd + dd < monthStartIdx y m)
    (hme : monthStartIdx y m ≤ monthEndIdx y m) :
    calculateDates ⟨some (fy, fm, fd), cyc, dd⟩ y m =
      some (daysFromCivil fy fm fd + 1000 * cyc,
            daysFromCivil fy fm fd + dd + 1000 * cyc) := by
  rw [calculateDates]
  rw [if_neg (by push_neg; exact ⟨hy, hm⟩)]
  simp only []
  rw [if_neg (by omega)]
  rw [calcLoop_exhausts cyc (monthStartIdx y m) (monthEndIdx y m) hcyc hme
    1000 (daysFromCivil fy fm fd) (daysFromCivil fy fm fd + dd) hstart]
  norm_num

/-- C4 amended witness: the 2020-01-01 anchor with cycle −30 against
March 2025 returns the pair shifted by −30000 days. -/
theorem C4_amended_witness :
    calculateDates ⟨some (2020, 1, 1), -30, 0⟩ 2025 3 =
      some (daysFromCivil 2020 1 1 + 1000 * (-30),
            daysFromCivil 2020 1 1 + 0 + 1000 * (-30)) :=
  C4_amended 2020 1 1 (-30) 0 2025 3 (by decide) (by decide) (by decide)
    (by decide) (by decide)

/-! ## Statement ledger: expense lifecycle against one card statement,
src/server/routes.ts lines 639-883 -/

/-- Mutable fields of a card statement touched by the expense lifecycle. -/
structure Stmt where
  totalDue : Int
  status : Status
  paidDate : Option Int
deriving DecidableEq

/-- Expense row of the budget as needed by the lifecycle routes: id,
amount, kind, link to a card statement (by statement id) and status. -/
structure ExpRow where
  id : Nat
  amount : Int
  kind : Kind
  linked : Option Nat
  status : Status
deriving DecidableEq

/-- State around one tracked statement (id `sid`): the statement's mutable
fields, the budget's expense rows, the budget's `balanceUsed`, and a
fresh-id supply for created expenses.  Expenses may link to other
statements (ids ≠ `sid`); mutations of those statements are outside this
view but their `balanceUsed` side effects are tracked. -/
structure LState where
  sid : Nat
  stmt : Stmt
  expenses : List ExpRow
  balanceUsed : Int
  nextId : Nat
deriving DecidableEq

/-- `POST /api/budgets/:year/:month/expenses` (src/server/routes.ts lines
640-732): with a `statementId` the expense becomes a CARD_BILL linked to
that statement and the statement's `totalDue` is incremented by the
amount; without one a REGULAR pending expense is appended. -/
def createExpense (amount : Int) (link : Option Nat) (s : LState) : LState :=
  match link with
  | some t =>
      { s with
        stmt := if t = s.sid then
            { s.stmt with totalDue := s.stmt.totalDue + amount }
          else s.stmt
        expenses := s.expenses ++ [⟨s.nextId, amount, Kind.CARD_BILL, some t, Status.pending⟩]
        nextId := s.nextId + 1 }
  | none =>
      { s with
        expenses := s.expenses ++ [⟨s.nextId, amount, Kind.REGULAR, none, Status.pending⟩]
        nextId := s.nextId + 1 }

/-- `PATCH /api/expenses/:id/status` (src/server/routes.ts lines 735-798):
paying a pending CARD_BILL subtracts its amount from the linked
statement's `totalDue` floored at zero and marks the statement done;
un-paying adds the amount back, resets the statement to pending with no
paid date, and resets the budget's `balanceUsed` to 0; then the expense
row's own status is updated. -/
def toggleExpense (eid : Nat) (newStatus : Status) (today : Int) (s : LState) : LState :=
  match s.expenses.find? (fun e => e.id == eid) with
  | none => s
  | some exp =>
    let s1 :=
      if exp.kind = Kind.CARD_BILL then
        match exp.linked with
        | some t =>
          if t = s.sid then
            if newStatus = Status.done ∧ exp.status = Status.pending then
              { s with stmt := ⟨max 0 (s.stmt.totalDue - exp.amount), Status.done, some today⟩ }
            else if newStatus = Status.pending ∧ exp.status = Status.done then
              { s with stmt := ⟨s.stmt.totalDue + exp.amount, Status.pending, none⟩
                       balanceUsed := 0 }
            else s
          else
            if newStatus = Status.pending ∧ exp.status = Status.done then
              { s with balanceUsed := 0 }
            else s
        | none => s
      else s
    { s1 with expenses := s1.expenses.map (fun e =>
        if e.id == eid then { e with status := newStatus } else e) }

/-- `DELETE /api/expenses/:id` (src/server/routes.ts lines 819-883): a
pending CARD_BILL's amount is subtracted from the linked statement's
`totalDue` floored at zero; a paid one leaves `totalDue` but resets the
statement to pending/no-paid-date and zeroes `balanceUsed`; if no other
expense remains linked to that statement it is reset to
0/pending/no-paid-date; finally the row is removed. -/
def deleteExpense (eid : Nat) (s : LState) : LState :=
  match s.expenses.find? (fun e => e.id == eid) with
  | none => s
  | some exp =>
    let s1 :=
      if exp.kind = Kind.CARD_BILL then
        match exp.linked with
        | some t =>
          let s2 :=
            if t = s.sid then
              if exp.status = Status.pending then
                { s with stmt := { s.stmt with
                    totalDue := max 0 (s.stmt.totalDue - exp.amount) } }
              else
                { s with stmt := { s.stmt with status := Status.pending, paidDate := none }
                         balanceUsed := 0 }
            else
              if exp.status = Status.pending then s else { s with balanceUsed := 0 }
          let others := s2.expenses.filter (fun e =>
            e.kind == Kind.CARD_BILL && e.linked == some t && e.id != eid)
          if others.isEmpty ∧ t = s.sid then
            { s2 with stmt := ⟨0, Status.pending, none⟩ }
          else s2
        | none => s
      else s
    { s1 with expenses := s1.expenses.filter (fun e => e.id != eid) }

/-- C5: from a statement at `totalDue = 0`, creating a linked CARD_BILL
expense of X and deleting it unpaid returns `totalDue` to exactly 0; and
creating X, marking paid, then unmarking paid returns `totalDue` to
exactly X with the statement reset to PENDING and `paidDate` null. -/
theorem C5_ledger_conservation (s : LState) (X d1 d2 : Int)
    (hzero : s.stmt.totalDue = 0)
    (hids : s.expenses.all (fun e => e.id != s.nextId) = true) :
    (deleteExpense s.nextId (createExpense X (some s.sid) s)).stmt.totalDue = 0 ∧
    (toggleExpense s.nextId Status.pending d2 (toggleExpense s.nextId Status.done d1
        (createExpense X (some s.sid) s))).stmt = ⟨X, Status.pending, none⟩ := by
  have hfind0 : s.expenses.find? (fun e => e.id == s.nextId) = none := by
    rw [List.find?_eq_none]
    intro x hx
    have := List.all_eq_true.mp hids x hx
    simpa using this
  have hcreate : createExpense X (some s.sid) s =
      { s with stmt := { s.stmt with totalDue := s.stmt.totalDue + X }
               expenses := s.expenses ++
                 [⟨s.nextId, X, Kind.CARD_BILL, some s.sid, Status.pending⟩]
               nextId := s.nextId + 1 } := by
    simp [createExpense]
  have hfind1 : (s.expenses ++
      [(⟨s.nextId, X, Kind.CARD_BILL, some s.sid, Status.pending⟩ : ExpRow)]).find?
        (fun e => e.id == s.nextId) =
      some (⟨s.nextId, X, Kind.CARD_BILL, some s.sid, Status.pending⟩ : ExpRow) := by
    rw [find?_append_of_none _ _ _ hfind0]
    simp [List.find?_cons]
  constructor
  · rw [hcreate]
    simp only [deleteExpense, hfind1]
    simp only [if_pos rfl, and_true, true_and]
    split <;> simp_all
    split <;> rfl
  · rw [hcreate]
    have hmapdone : ((s.expenses ++
        [(⟨s.nextId, X, Kind.CARD_BILL, some s.sid, Status.pending⟩ : ExpRow)]).map (fun e =>
          if e.id == s.nextId then { e with status := Status.done } else e)) =
        s.expenses ++ [(⟨s.nextId, X, Kind.CARD_BILL, some s.sid, Status.done⟩ : ExpRow)] := by
      rw [List.map_append]
      have hcg := List.map_congr_left (l := s.expenses)
        (f := fun e => if e.id == s.nextId then
          ({ e with status := Status.done } : ExpRow) else e)
        (g := id)
        (by
          intro a ha
          have hne := List.all_eq_true.mp hids a ha
          simp only [bne_iff_ne, ne_eq] at hne
          simp [hne])
      rw [hcg, List.map_id]
      simp
    have h1 : toggleExpense s.nextId Status.done d1
        ({ s with stmt := { s.stmt with totalDue := s.stmt.totalDue + X }
                  expenses := s.expenses ++
                    [⟨s.nextId, X, Kind.CARD_BILL, some s.sid, Status.pending⟩]
                  nextId := s.nextId + 1 } : LState) =
        { s with stmt := ⟨max 0 (s.stmt.totalDue + X - X), Status.done, some d1⟩
                 expenses := s.expenses ++
                   [⟨s.nextId, X, Kind.CARD_BILL, some s.sid, Status.done⟩]
                 nextId := s.nextId + 1 } := by
      simp only [toggleExpense, hfind1]
      simp only [if_pos rfl, and_true, true_and]
      simp only [reduceCtorEq, if_true, if_false, and_false, false_and]
      rw [hmapdone]
    rw [h1]
    have hfind2 : (s.expenses ++
        [(⟨s.nextId, X, Kind.CARD_BILL, some s.sid, Status.done⟩ : ExpRow)]).find?
          (fun e => e.id == s.nextId) =
        some (⟨s.nextId, X, Kind.CARD_BILL, some s.sid, Status.done⟩ : ExpRow) := by
      rw [find?_append_of_none _ _ _ hfind0]
      simp [List.find?_cons]
    simp only [toggleExpense, hfind2]
    simp only [if_pos rfl, and_true, true_and]
    simp only [reduceCtorEq, if_true, if_false, and_false, false_and]
    simp only [Stmt.mk.injEq]
    exact ⟨by omega, by simp⟩

/-- C5 witness: a fresh statement, X = 45000. -/
theorem C5_witness :
    (deleteExpense 0 (createExpense 45000 (some 7)
      ⟨7, ⟨0, Status.pending, none⟩, [], 0, 0⟩)).stmt.totalDue = 0 ∧
    (toggleExpense 0 Status.pending 5 (toggleExpense 0 Status.done 4
        (createExpense 45000 (some 7)
          ⟨7, ⟨0, Status.pending, none⟩, [], 0, 0⟩))).stmt =
      ⟨45000, Status.pending, none⟩ :=
  C5_ledger_conservation ⟨7, ⟨0, Status.pending, none⟩, [], 0, 0⟩ 45000 4 5
    rfl (by decide)

/-- Expense-lifecycle operation: create a (possibly linked) expense,
toggle an expense's status, or delete an expense. -/
inductive LOp
  | create (amount : Int) (link : Option Nat)
  | toggle (eid : Nat) (newStatus : Status) (today : Int)
  | del (eid : Nat)
deriving DecidableEq

/-- Interpret one lifecycle operation on the ledger state. -/
def applyLOp : LOp → LState → LState
  | LOp.create amount link, s => createExpense amount link s
  | LOp.toggle eid st today, s => toggleExpense eid st today s
  | LOp.del eid, s => deleteExpense eid s

/-- Interpret a sequence of lifecycle operations left to right. -/
def applyLOps (ops : List LOp) (s : LState) : LState :=
  ops.foldl (fun s op => applyLOp op s) s

/-- Does a lifecycle operation only introduce a nonnegative amount? -/
def opOk : LOp → Bool
  | LOp.create amount _ => decide (0 ≤ amount)
  | _ => true

/-- The nonnegativity invariant preserved by every lifecycle operation:
the tracked statement's `totalDue` and all expense amounts stay ≥ 0. -/
def ledgerInv (s : LState) : Prop :=
  0 ≤ s.stmt.totalDue ∧ ∀ e ∈ s.expenses, 0 ≤ e.amount

/-- Creating an expense of nonnegative amount preserves the
nonnegativity invariant. -/
theorem createExpense_inv (amount : Int) (link : Option Nat) (s : LState)
    (ha : 0 ≤ amount) (h : ledgerInv s) : ledgerInv (createExpense amount link s) := by
  obtain ⟨hdue, hexp⟩ := h
  cases link with
  | none =>
      refine ⟨hdue, ?_⟩
      intro e he
      rw [createExpense] at he
      simp only [List.mem_append, List.mem_singleton] at he
      rcases he with he | rfl
      · exact hexp e he
      · exact ha
  | some t =>
      refine ⟨?_, ?_⟩
      · rw [createExpense]
        dsimp only
        split
        · dsimp only
          omega
        · exact hdue
      · intro e he
        rw [createExpense] at he
        simp only [List.mem_append, List.mem_singleton] at he
        rcases he with he | rfl
        · exact hexp e he
        · exact ha

/-- Toggling an expense's status preserves the nonnegativity invariant:
the only subtraction from `totalDue` is floored at zero, and the
addition on un-pay adds a nonnegative stored amount. -/
theorem toggleExpense_inv (eid : Nat) (st : Status) (today : Int) (s : LState)
    (h : ledgerInv s) : ledgerInv (toggleExpense eid st today s) := by
  obtain ⟨hdue, hexp⟩ := h
  rw [toggleExpense]
  cases hf : s.expenses.find? (fun e => e.id == eid) with
  | none => exact ⟨hdue, hexp⟩
  | some exp =>
      have hexpamt : 0 ≤ exp.amount := hexp exp (List.mem_of_find?_eq_some hf)
      have hmap : ∀ (l : List ExpRow), (∀ e ∈ l, 0 ≤ e.amount) →
          ∀ e2 ∈ l.map (fun e =>
            if e.id == eid then { e with status := st } else e), 0 ≤ e2.amount := by
        intro l hl e2 he2
        rw [List.mem_map] at he2
        obtain ⟨a, ha2, rfl⟩ := he2
        by_cases hid : (a.id == eid) = true <;> simp only [hid, if_true, if_false] <;>
          exact hl a ha2
      refine ⟨?_, ?_⟩
      · dsimp only
        repeat' split
        all_goals try dsimp only
        all_goals first
          | exact le_sup_left
          | omega
      · dsimp only
        apply hmap
        repeat' split
        all_goals exact hexp

/-- Deleting an expense preserves the nonnegativity invariant: the only
subtraction from `totalDue` is floored at zero, and the empty-link reset
sets it to 0. -/
theorem deleteExpense_inv (eid : Nat) (s : LState)
    (h : ledgerInv s) : ledgerInv (deleteExpense eid s) := by
  obtain ⟨hdue, hexp⟩ := h
  rw [deleteExpense]
  cases hf : s.expenses.find? (fun e => e.id == eid) with
  | none => exact ⟨hdue, hexp⟩
  | some exp =>
      have hfil : ∀ (l : List ExpRow), (∀ e ∈ l, 0 ≤ e.amount) →
          ∀ e2 ∈ l.filter (fun e => e.id != eid), 0 ≤ e2.amount := by
        intro l hl e2 he2
        rw [List.mem_filter] at he2
        exact hl e2 he2.1
      refine ⟨?_, ?_⟩
      · dsimp only
        repeat' split
        all_goals try dsimp only
        all_goals first
          | exact le_sup_left
          | omega
      · dsimp only
        apply hfil
        repeat' split
        all_goals exact hexp

/-- A single operation with a nonnegative created amount preserves the
nonnegativity invariant. -/
theorem applyLOp_inv (op : LOp) (s : LState) (hop : opOk op = true)
    (h : ledgerInv s) : ledgerInv (applyLOp op s) := by
  cases op with
  | create amount link =>
      have ha : 0 ≤ amount := by
        simpa [opOk] using hop
      exact createExpense_inv amount link s ha h
  | toggle eid st today => exact toggleExpense_inv eid st today s h
  | del eid => exact deleteExpense_inv eid s h

/-- A sequence of operations with nonnegative created amounts preserves
the nonnegativity invariant. -/
theorem applyLOps_inv (ops : List LOp) : ∀ (s : LState),
    ops.all opOk = true → ledgerInv s → ledgerInv (applyLOps ops s) := by
  induction ops with
  | nil =>
      intro s _ h
      exact h
  | cons op t ih =>
      intro s hops h
      have hop : opOk op = true :=
        List.all_eq_true.mp hops op (List.mem_cons_self op t)
      have hops2 : t.all opOk = true := by
        rw [List.all_eq_true] at hops ⊢
        intro x hx
        exact hops x (List.mem_cons_of_mem op hx)
      exact ih (applyLOp op s) hops2 (applyLOp_inv op s hop h)

/-- C9: as stated over all operation sequences the claim fails: a created
linked expense with a negative amount (which the route does not reject)
drives `totalDue` below zero in one step. -/
theorem C9_counterexample :
    (applyLOps [LOp.create (-1) (some 1)]
      ⟨1, ⟨0, Status.pending, none⟩, [], 0, 0⟩).stmt.totalDue < 0 := by
  decide

/-- C9 (amended): for a statement starting at `totalDue = 0` whose stored
expense amounts are nonnegative, every sequence of lifecycle operations
whose created amounts are nonnegative keeps `totalDue ≥ 0`: every
subtraction from `totalDue` is floored at zero and every addition adds a
nonnegative amount. -/
theorem C9_totalDue_nonneg (ops : List LOp) (s : LState)
    (hzero : s.stmt.totalDue = 0)
    (hexp : s.expenses.all (fun e => decide (0 ≤ e.amount)) = true)
    (hops : ops.all opOk = true) :
    0 ≤ (applyLOps ops s).stmt.totalDue := by
  have hinv : ledgerInv s := by
    refine ⟨by omega, ?_⟩
    intro e he
    have := List.all_eq_true.mp hexp e he
    simpa using this
  exact (applyLOps_inv ops s hops hinv).1

/-- C9 witness: a create / pay / delete run from a fresh statement. -/
theorem C9_witness :
    0 ≤ (applyLOps [LOp.create 5 (some 1), LOp.toggle 0 Status.done 3, LOp.del 0]
      ⟨1, ⟨0, Status.pending, none⟩, [], 0, 0⟩).stmt.totalDue :=
  C9_totalDue_nonneg [LOp.create 5 (some 1), LOp.toggle 0 Status.done 3, LOp.del 0]
    ⟨1, ⟨0, Status.pending, none⟩, [], 0, 0⟩ rfl (by decide) (by decide)

/-! ## Next-month creation, src/server/routes.ts lines 1012-1122 -/

/-- Budget row: one per (userId, year, month). -/
structure Budget where
  id : Nat
  userId : Nat
  year : Int
  month : Int
deriving DecidableEq

/-- Income row keyed by its budget. -/
structure BIncomeRow where
  budgetId : Nat
  source : Chars
  amount : Int
  recurring : Bool
  status : Status
deriving DecidableEq

/-- Expense row keyed by its budget. -/
structure BExpenseRow where
  budgetId : Nat
  label : Chars
  amount : Int
  recurring : Bool
  status : Status
  kind : Kind
  linkedLoanId : Option Nat
deriving DecidableEq

/-- Loan row of a user. -/
structure LoanRow where
  id : Nat
  userId : Nat
  name : Chars
  installmentAmount : Int
deriving DecidableEq

/-- Credit card row as used by next-month statement pre-creation. -/
structure CardRow where
  id : Nat
  userId : Nat
  statementDay : Int
  dueDay : Int
  dayDifference : Int
deriving DecidableEq

/-- Pre-created card statement row (dates as civil day indices). -/
structure StatementRow where
  cardId : Nat
  year : Int
  month : Int
  statementDate : Int
  dueDate : Int
  totalDue : Int
  status : Status
deriving DecidableEq

/-- Storage snapshot touched by the create-next route, with a fresh-id
supply for created budgets. -/
structure AppState where
  budgets : List Budget
  incomes : List BIncomeRow
  expenses : List BExpenseRow
  loans : List LoanRow
  cards : List CardRow
  statements : List StatementRow
  nextId : Nat
deriving DecidableEq

/-- Errors surfaced by the create-next route. -/
inductive CreateNextErr
  | invalidMonth
  | duplicateMonth
deriving DecidableEq

/-- `storage.getBudget(userId, year, month)`. -/
def getBudget (u : Nat) (y m : Int) (s : AppState) : Option Budget :=
  s.budgets.find? (fun b => b.userId == u && b.year == y && b.month == m)

/-- Wrap of the month counter (src/server/routes.ts lines 1024-1029). -/
def nextYM (y m : Int) : Int × Int :=
  if 12 < m + 1 then (y + 1, 1) else (y, m + 1)

/-- `getDaysInMonth` (src/server/routes.ts lines 1129-1131), expressed on
the civil day encoding. -/
def daysInMonthC (y m : Int) : Int :=
  monthEndIdx y m - monthStartIdx y m + 1

/-- `storage.getRecurringIncomes(userId, year, month)`
(src/unnamed/part_010): the recurring incomes of that month's budget. -/
def getRecurringIncomes (u : Nat) (y m : Int) (s : AppState) : List BIncomeRow :=
  match getBudget u y m s with
  | none => []
  | some b => s.incomes.filter (fun i => i.budgetId == b.id && i.recurring)

/-- `storage.getRecurringExpenses(userId, year, month)`
(src/unnamed/part_010): the recurring REGULAR expenses of that month's
budget. -/
def getRecurringExpenses (u : Nat) (y m : Int) (s : AppState) : List BExpenseRow :=
  match getBudget u y m s with
  | none => []
  | some b => s.expenses.filter (fun e =>
      e.budgetId == b.id && e.recurring && e.kind == Kind.REGULAR)

/-- `POST /api/budgets/:year/:month/create-next` (src/server/routes.ts
lines 1012-1122): validate the month, fail with the duplicate error
before any write if the next month's budget already exists, otherwise
create the budget, copy recurring incomes and expenses (as pending
REGULAR rows), materialize every loan as a LOAN expense, and pre-create
one statement per credit card with the legacy day-of-month prediction. -/
def createNext (u : Nat) (y m : Int) (s : AppState) :
    AppState × Option CreateNextErr :=
  if m < 1 ∨ 12 < m then (s, some CreateNextErr.invalidMonth)
  else
    let ny := (nextYM y m).1
    let nm := (nextYM y m).2
    match getBudget u ny nm s with
    | some _ => (s, some CreateNextErr.duplicateMonth)
    | none =>
        let bid := s.nextId
        let newB : Budget := ⟨bid, u, ny, nm⟩
        let newIncs := (getRecurringIncomes u y m s).map (fun i =>
          (⟨bid, i.source, i.amount, true, Status.pending⟩ : BIncomeRow))
        let newExps := (getRecurringExpenses u y m s).map (fun e =>
          (⟨bid, e.label, e.amount, true, Status.pending, Kind.REGULAR, none⟩ : BExpenseRow))
        let loanExps := (s.loans.filter (fun l => l.userId == u)).map (fun l =>
          (⟨bid, l.name, l.installmentAmount, true, Status.pending, Kind.LOAN,
            some l.id⟩ : BExpenseRow))
        let newStmts := (s.cards.filter (fun c => c.userId == u)).map (fun c =>
          let sIdx := daysFromCivil ny nm (min c.statementDay (daysInMonthC ny nm))
          (⟨c.id, ny, nm, sIdx, sIdx + c.dayDifference, 0, Status.pending⟩ : StatementRow))
        ({ s with
            budgets := s.budgets ++ [newB]
            incomes := s.incomes ++ newIncs
            expenses := s.expenses ++ newExps ++ loanExps
            statements := s.statements ++ newStmts
            nextId := s.nextId + 1 }, none)

/-- C8: when the next month's budget does not yet exist, create-next
succeeds, and running it again for the same source month fails with the
duplicate-month error and returns the state of the first call unchanged
(the guard runs before any write). -/
theorem C8_duplicate_guard (u : Nat) (y m : Int) (s : AppState)
    (h1 : 1 ≤ m) (h2 : m ≤ 12)
    (h0 : getBudget u (nextYM y m).1 (nextYM y m).2 s = none) :
    (createNext u y m s).2 = none ∧
    createNext u y m (createNext u y m s).1 =
      ((createNext u y m s).1, some CreateNextErr.duplicateMonth) := by
  have hvalid : ¬ (m < 1 ∨ 12 < m) := by omega
  have hfirst : (createNext u y m s).2 = none := by
    rw [createNext, if_neg hvalid]
    simp only [h0]
  refine ⟨hfirst, ?_⟩
  have hs1 : (createNext u y m s).1.budgets =
      s.budgets ++ [⟨s.nextId, u, (nextYM y m).1, (nextYM y m).2⟩] := by
    rw [createNext, if_neg hvalid]
    simp only [h0]
  have hdup : getBudget u (nextYM y m).1 (nextYM y m).2 (createNext u y m s).1 =
      some ⟨s.nextId, u, (nextYM y m).1, (nextYM y m).2⟩ := by
    rw [getBudget, hs1]
    rw [find?_append_of_none _ _ _ h0]
    simp [List.find?_cons]
  rw [createNext, if_neg hvalid]
  simp only [hdup]

/-- C8 witness: December wrap, empty initial storage. -/
theorem C8_witness :
    (createNext 1 2025 12 ⟨[], [], [], [], [], [], 0⟩).2 = none ∧
    createNext 1 2025 12 (createNext 1 2025 12 ⟨[], [], [], [], [], [], 0⟩).1 =
      ((createNext 1 2025 12 ⟨[], [], [], [], [], [], 0⟩).1,
        some CreateNextErr.duplicateMonth) :=
  C8_duplicate_guard 1 2025 12 ⟨[], [], [], [], [], [], 0⟩
    (by norm_num) (by norm_num) (by decide)

end NikalBudget
